import Mathlib

/-!
Verification of the function-calling schema generator and validator of
`src/core/utils/generator_schema.py` (classes `ParameterConfig`,
`SchemaGenerator`, `SchemaValidator`).

The Python code manipulates JSON-shaped values (dicts with string keys,
lists, strings, numbers, booleans, `None`).  `JsonValue` is that universe;
a dict is an ordered association list, which matches Python's
insertion-ordered dicts.  Operations that can raise in Python
(`in` on a non-container, `.get` on a non-dict, iteration of a
non-iterable) are modelled in `Except Unit`, where `.error ()` stands for
a raised exception reaching that point.
-/

inductive JsonValue where
  | null
  | bool (b : Bool)
  | num (n : Int)
  | str (s : String)
  | arr (elems : List JsonValue)
  | obj (fields : List (String × JsonValue))

/-- Structural equality on JSON values, modelling Python `==` on this universe. -/
def beqJson : JsonValue → JsonValue → Bool
  | .null, .null => true
  | .bool a, .bool b => a == b
  | .num a, .num b => a == b
  | .str a, .str b => a == b
  | .arr xs, .arr ys =>
      xs.length == ys.length &&
        (List.zip xs ys).attach.all (fun p => beqJson p.1.1 p.1.2)
  | .obj xs, .obj ys =>
      xs.length == ys.length &&
        (List.zip xs ys).attach.all (fun p => p.1.1.1 == p.1.2.1 && beqJson p.1.1.2 p.1.2.2)
  | _, _ => false
termination_by x _ => sizeOf x
decreasing_by
  · obtain ⟨⟨a, b⟩, hp⟩ := p
    have := List.sizeOf_lt_of_mem ((List.of_mem_zip hp).1)
    simp at *
    try omega
  · obtain ⟨⟨⟨k1, v1⟩, ⟨k2, v2⟩⟩, hp⟩ := p
    have := List.sizeOf_lt_of_mem ((List.of_mem_zip hp).1)
    simp at *
    try omega

/-- Python `repr` of a JSON-shaped value, as far as the embedded code needs it. -/
def pyRepr : JsonValue → String
  | .null => "None"
  | .bool true => "True"
  | .bool false => "False"
  | .num n => toString n
  | .str s => "'" ++ s ++ "'"
  | .arr xs => "[" ++ String.intercalate ", " (xs.attach.map (fun x => pyRepr x.1)) ++ "]"
  | .obj fs => "\x7b" ++ String.intercalate ", "
      (fs.attach.map (fun f => "'" ++ f.1.1 ++ "': " ++ pyRepr f.1.2)) ++ "\x7d"
decreasing_by
  · obtain ⟨x, hx⟩ := x
    have := List.sizeOf_lt_of_mem hx
    simp at *
    try omega
  · obtain ⟨⟨k, v⟩, hf⟩ := f
    have := List.sizeOf_lt_of_mem hf
    simp at *
    try omega

/-- Python `str` of a JSON-shaped value (as an f-string interpolates it):
a string renders as itself, anything else as its `repr`. -/
def pyStr (v : JsonValue) : String :=
  match v with
  | .str s => s
  | .null => pyRepr .null
  | .bool b => pyRepr (.bool b)
  | .num n => pyRepr (.num n)
  | .arr xs => pyRepr (.arr xs)
  | .obj fs => pyRepr (.obj fs)

/-- Whether the value is Python `None`. -/
def JsonValue.isNull : JsonValue → Bool
  | .null => true
  | _ => false

/-- Python truthiness of a JSON-shaped value (`if v:`). -/
def pyTruthy : JsonValue → Bool
  | .null => false
  | .bool b => b
  | .num n => n != 0
  | .str s => s != ""
  | .arr xs => !xs.isEmpty
  | .obj fs => !fs.isEmpty

/-- Python `v == lit` for a string literal `lit`: equal strings, and `False`
whenever `v` is not a string (Python equality across types). -/
def eqStr : JsonValue → String → Bool
  | .str s, t => s == t
  | _, _ => false

/-- First binding of key `k` in an association list (Python dict lookup). -/
def objLookup : List (String × JsonValue) → String → Option JsonValue
  | [], _ => none
  | f :: rest, k => if f.1 = k then some f.2 else objLookup rest k

/-- Whether the association list binds key `k` (Python `k in d` for a dict). -/
def hasKey : List (String × JsonValue) → String → Bool
  | [], _ => false
  | f :: rest, k => if f.1 = k then true else hasKey rest k

/-- Python `d[k] = v` on an insertion-ordered dict: an existing key keeps its
position and gets the new value, a new key goes to the end. -/
def insertKey : List (String × JsonValue) → String → JsonValue → List (String × JsonValue)
  | [], k, v => [(k, v)]
  | f :: rest, k, v => if f.1 = k then (k, v) :: rest else f :: insertKey rest k v

/-- Whether `t` occurs as a contiguous run inside `s` (Python `t in s` on strings). -/
def charsInfix : List Char → List Char → Bool
  | t, [] => t.isEmpty
  | t, c :: rest => List.isPrefixOf t (c :: rest) || charsInfix t rest

/-- Python `elem in container`.  `.error ()` where the operator raises
`TypeError`: the container is not a container, or an unhashable value is
looked up in a dict. -/
def pyContains (container elem : JsonValue) : Except Unit Bool :=
  match container with
  | .obj fields =>
      match elem with
      | .str s => .ok (hasKey fields s)
      | .arr _ => .error ()
      | .obj _ => .error ()
      | _ => .ok false
  | .arr xs => .ok (xs.any (fun x => beqJson x elem))
  | .str s =>
      match elem with
      | .str t => .ok (charsInfix t.data s.data)
      | _ => .error ()
  | _ => .error ()

/-- Python iteration `for x in v`: a list yields its elements, a dict its keys,
a string its characters; anything else raises `TypeError`. -/
def pyIter : JsonValue → Except Unit (List JsonValue)
  | .arr xs => .ok xs
  | .obj fields => .ok (fields.map (fun f => JsonValue.str f.1))
  | .str s => .ok (s.data.map (fun c => JsonValue.str (String.singleton c)))
  | _ => .error ()

/-- Python `v.get(k, d)`: dict lookup with a default.  `.error ()` models the
`AttributeError` raised when `v` is not a dict. -/
def pyGet (v : JsonValue) (k : String) (d : JsonValue) : Except Unit JsonValue :=
  match v with
  | .obj fields => .ok ((objLookup fields k).getD d)
  | _ => .error ()

/-- Embeds the dataclass `ParameterConfig` (`generator_schema.py`, lines 5-19).
Every optional field is declared `Optional[...] = None` in the source and only
ever tested with `is not None`, so each is held as a `JsonValue` whose `.null`
is Python `None`: a present `None` and an absent field are one and the same,
exactly as in the Python object. -/
structure ParameterConfig where
  param_type : String
  description : String
  required : Bool := false
  enum : JsonValue := .null
  minimum : JsonValue := .null
  maximum : JsonValue := .null
  min_length : JsonValue := .null
  max_length : JsonValue := .null
  pattern : JsonValue := .null
  default : JsonValue := .null
  items : JsonValue := .null
  properties : JsonValue := .null

/-- One `if config.f is not None: prop[key] = config.f` step of
`_build_property`: the binding emitted for one optional field. -/
def optField (key : String) (v : JsonValue) : List (String × JsonValue) :=
  if v.isNull then [] else [(key, v)]

/-- Embeds `SchemaGenerator._build_property` (lines 65-103).  The dict starts
with `type` and `description` and each optional field appends its binding in
source order; the keys are pairwise distinct literals, so successive dict
insertion is plain concatenation. -/
def build_property (config : ParameterConfig) : List (String × JsonValue) :=
  [("type", JsonValue.str config.param_type), ("description", JsonValue.str config.description)]
  ++ optField "enum" config.enum
  ++ optField "minimum" config.minimum
  ++ optField "maximum" config.maximum
  ++ optField "minLength" config.min_length
  ++ optField "maxLength" config.max_length
  ++ optField "pattern" config.pattern
  ++ optField "default" config.default
  ++ (if config.param_type == "array" then optField "items" config.items else [])
  ++ (if config.param_type == "object" then optField "properties" config.properties else [])

/-- The `properties` dict that `create_schema`'s loop (lines 54-61) builds:
`schema["function"]["parameters"]["properties"][param_name] = prop` for each
parameter in iteration order. -/
def buildProperties (parameters : List (String × ParameterConfig)) : List (String × JsonValue) :=
  parameters.foldl (fun acc p => insertKey acc p.1 (JsonValue.obj (build_property p.2))) []

/-- The `required` list that `create_schema`'s loop builds:
`required.append(param_name)` whenever `config.required` holds. -/
def buildRequired (parameters : List (String × ParameterConfig)) : List JsonValue :=
  parameters.foldl (fun acc p => if p.2.required then acc ++ [JsonValue.str p.1] else acc) []

/-- Embeds `SchemaGenerator.create_schema` (lines 24-63): the fixed skeleton
with the loop's `properties` dict and `required` list filled in. -/
def create_schema (function_name : String) (description : String)
    (parameters : List (String × ParameterConfig)) : JsonValue :=
  .obj [("type", .str "function"),
        ("function", .obj
          [("name", .str function_name),
           ("description", .str description),
           ("parameters", .obj
             [("type", .str "object"),
              ("properties", .obj (buildProperties parameters)),
              ("required", .arr (buildRequired parameters))])])]

/-- The JSON type that `SchemaGenerator._infer_type` (lines 143-158) returns
for one Python annotation.  `none` models `inspect.Parameter.empty` (no
annotation); `other` models any annotation outside the six mapped types, for
which `type_mapping.get(annotation, "string")` falls back to `"string"`. -/
inductive PyType where
  | pystr
  | pyint
  | pyfloat
  | pybool
  | pylist
  | pydict
  | other

/-- Embeds `SchemaGenerator._infer_type` (lines 143-158). -/
def infer_type : Option PyType → String
  | none => "string"
  | some .pystr => "string"
  | some .pyint => "integer"
  | some .pyfloat => "number"
  | some .pybool => "boolean"
  | some .pylist => "array"
  | some .pydict => "object"
  | some .other => "string"

/-- One entry of `inspect.signature(func).parameters`: the parameter's name,
its annotation (`none` for `inspect.Parameter.empty`) and its declared default
value (`none` for `inspect.Parameter.empty`, i.e. no default declared). -/
structure PyParam where
  name : String
  anno : Option PyType := none
  default : Option JsonValue := none

/-- First binding of `k` in a string-valued association list
(`param_descriptions.get(param_name)`). -/
def lookupStr : List (String × String) → String → Option String
  | [], _ => none
  | f :: rest, k => if f.1 = k then some f.2 else lookupStr rest k

/-- The `ParameterConfig` that `from_function`'s loop body (lines 121-139)
builds for one parameter: type inferred from the annotation, description
looked up with the `"Parámetro <name>"` fallback, `required` iff no default is
declared, and the declared default attached afterwards when there is one. -/
def inferConfig (param_descriptions : List (String × String)) (p : PyParam) : ParameterConfig :=
  { param_type := infer_type p.anno
  , description := (lookupStr param_descriptions p.name).getD ("Parámetro " ++ p.name)
  , required := p.default.isNone
  , default := match p.default with
      | some v => v
      | none => .null }

/-- The parameter map `from_function`'s loop accumulates, in declaration order. -/
def inferConfigs (sig : List PyParam) (param_descriptions : List (String × String)) :
    List (String × ParameterConfig) :=
  sig.map (fun p => (p.name, inferConfig param_descriptions p))

/-- Embeds `SchemaGenerator.from_function` (lines 105-141).  The callable is
given by its `__name__` and its introspected signature `sig`; the function
delegates to `create_schema` on the inferred parameter map. -/
def from_function (func_name : String) (sig : List PyParam) (description : String)
    (param_descriptions : List (String × String)) : JsonValue :=
  create_schema func_name description (inferConfigs sig param_descriptions)

/-- The `all(key in function_def for key in required_keys)` generator of
`validate` (line 342): short-circuits on the first missing key, and a raising
membership test propagates. -/
def allKeysIn (function_def : JsonValue) : List String → Except Unit Bool
  | [] => .ok true
  | k :: ks =>
      match pyContains function_def (.str k) with
      | .error e => .error e
      | .ok false => .ok false
      | .ok true => allKeysIn function_def ks

/-- The `for req_param in required: if req_param not in properties: return False`
loop of `validate` (lines 354-356). -/
def checkRequired (properties : JsonValue) : List JsonValue → Except Unit Bool
  | [] => .ok true
  | r :: rs =>
      match pyContains properties r with
      | .error e => .error e
      | .ok false => .ok false
      | .ok true => checkRequired properties rs

/-- The body of `SchemaValidator.validate` (lines 331-358), without the
enclosing `try`: `.error ()` wherever inspecting the input raises. -/
def validateBody (schema : JsonValue) : Except Unit Bool :=
  match schema with
  | .obj fields =>
      if eqStr ((objLookup fields "type").getD .null) "function" then
        match allKeysIn ((objLookup fields "function").getD (.obj []))
            ["name", "description", "parameters"] with
        | .error e => .error e
        | .ok false => .ok false
        | .ok true =>
          match pyGet ((objLookup fields "function").getD (.obj [])) "parameters" (.obj []) with
          | .error e => .error e
          | .ok params =>
            match pyGet params "type" .null with
            | .error e => .error e
            | .ok ptype =>
              if eqStr ptype "object" then
                match pyGet params "properties" (.obj []), pyGet params "required" (.arr []) with
                | .error e, _ => .error e
                | .ok _, .error e => .error e
                | .ok props, .ok required =>
                  match pyIter required with
                  | .error e => .error e
                  | .ok reqList => checkRequired props reqList
              else .ok false
      else .ok false
  | _ => .ok false

/-- Embeds `SchemaValidator.validate` (lines 328-361): the body under
`try ... except Exception: return False`. -/
def validate (schema : JsonValue) : Bool :=
  match validateBody schema with
  | .ok b => b
  | .error _ => false

/-- The `for key in required_keys: if key not in function_def: errors.append(...)`
loop of `get_validation_errors` (lines 380-383): one message per missing key,
in key order; a raising membership test propagates. -/
def collectMissingKeys (function_def : JsonValue) : List String → Except Unit (List String)
  | [] => .ok []
  | k :: ks =>
      match pyContains function_def (.str k) with
      | .error e => .error e
      | .ok c =>
        match collectMissingKeys function_def ks with
        | .error e => .error e
        | .ok rest =>
            .ok ((if c then [] else ["Falta campo requerido: function." ++ k]) ++ rest)

/-- The `for req_param in required: if req_param not in properties:
errors.append(...)` loop of `get_validation_errors` (lines 392-394): one
message per required name missing from `properties`, in list order. -/
def collectMissingRequired (properties : JsonValue) : List JsonValue → Except Unit (List String)
  | [] => .ok []
  | r :: rs =>
      match pyContains properties r with
      | .error e => .error e
      | .ok c =>
        match collectMissingRequired properties rs with
        | .error e => .error e
        | .ok rest =>
            .ok ((if c then []
                  else ["Parámetro requerido '" ++ pyStr r ++ "' no está en properties"]) ++ rest)

/-- Embeds `SchemaValidator.get_validation_errors` (lines 363-396).  There is
no `try` here: `.error ()` is an exception escaping to the caller.  The two
early returns of the source are the non-dict return and the falsy-`function`
return; otherwise the messages accumulate in source order. -/
def get_validation_errors (schema : JsonValue) : Except Unit (List String) :=
  match schema with
  | .obj fields =>
      let typeErrs :=
        if eqStr ((objLookup fields "type").getD .null) "function" then []
        else ["Tipo debe ser 'function'"]
      let function_def := (objLookup fields "function").getD .null
      if pyTruthy function_def then
        match collectMissingKeys function_def ["name", "description", "parameters"] with
        | .error e => .error e
        | .ok keyErrs =>
          match pyGet function_def "parameters" (.obj []) with
          | .error e => .error e
          | .ok params =>
            match pyGet params "type" .null with
            | .error e => .error e
            | .ok ptype =>
              let ptypeErrs :=
                if eqStr ptype "object" then [] else ["parameters.type debe ser 'object'"]
              match pyGet params "properties" (.obj []), pyGet params "required" (.arr []) with
              | .error e, _ => .error e
              | .ok _, .error e => .error e
              | .ok props, .ok required =>
                match pyIter required with
                | .error e => .error e
                | .ok reqList =>
                  match collectMissingRequired props reqList with
                  | .error e => .error e
                  | .ok reqErrs => .ok (typeErrs ++ keyErrs ++ ptypeErrs ++ reqErrs)
      else .ok (typeErrs ++ ["Falta definición de 'function'"])
  | _ => .ok ["Schema debe ser un diccionario"]

/-- `isinstance(schema, dict)` on the JSON universe. -/
def isDict : JsonValue → Bool
  | .obj _ => true
  | _ => false

lemma hasKey_insertKey (l : List (String × JsonValue)) (k : String) (v : JsonValue)
    (k' : String) : hasKey (insertKey l k v) k' = (if k = k' then true else hasKey l k') := by
  induction l with
  | nil => simp [insertKey, hasKey]
  | cons f rest ih =>
      by_cases h1 : f.1 = k <;> by_cases h2 : k = k' <;> by_cases h3 : f.1 = k' <;>
        simp_all [insertKey, hasKey]

lemma hasKey_buildProperties_aux (ps : List (String × ParameterConfig))
    (acc : List (String × JsonValue)) (s : String)
    (h : hasKey acc s = true ∨ ∃ c, (s, c) ∈ ps) :
    hasKey (ps.foldl (fun a p => insertKey a p.1 (JsonValue.obj (build_property p.2))) acc) s
      = true := by
  induction ps generalizing acc with
  | nil =>
      rcases h with h | ⟨c, hc⟩
      · simpa using h
      · simp at hc
  | cons p rest ih =>
      simp only [List.foldl_cons]
      apply ih
      rcases h with h | ⟨c, hc⟩
      · left
        rw [hasKey_insertKey]
        by_cases hpk : p.1 = s <;> simp [hpk, h]
      · rcases List.mem_cons.mp hc with hc | hc
        · left
          rw [hasKey_insertKey]
          have : p.1 = s := by
            rw [← hc]
          simp [this]
        · right
          exact ⟨c, hc⟩

lemma hasKey_buildProperties (ps : List (String × ParameterConfig)) (s : String)
    (c : ParameterConfig) (h : (s, c) ∈ ps) : hasKey (buildProperties ps) s = true :=
  hasKey_buildProperties_aux ps [] s (Or.inr ⟨c, h⟩)

lemma buildRequired_aux (ps : List (String × ParameterConfig)) (acc : List JsonValue) :
    ps.foldl (fun a p => if p.2.required then a ++ [JsonValue.str p.1] else a) acc
      = acc ++ (ps.filter (fun p => p.2.required)).map (fun p => JsonValue.str p.1) := by
  induction ps generalizing acc with
  | nil => simp
  | cons p rest ih =>
      by_cases h : p.2.required <;>
        simp [List.foldl_cons, List.filter_cons, h, ih]

lemma buildRequired_eq (ps : List (String × ParameterConfig)) :
    buildRequired ps
      = (ps.filter (fun p => p.2.required)).map (fun p => JsonValue.str p.1) := by
  simpa using buildRequired_aux ps []

lemma mem_buildRequired (ps : List (String × ParameterConfig)) (v : JsonValue)
    (h : v ∈ buildRequired ps) : ∃ s c, v = JsonValue.str s ∧ (s, c) ∈ ps := by
  rw [buildRequired_eq] at h
  rcases List.mem_map.mp h with ⟨p, hp, hv⟩
  exact ⟨p.1, p.2, hv.symm, List.mem_filter.mp hp |>.1⟩

lemma checkRequired_ok (props : JsonValue) (rs : List JsonValue)
    (h : ∀ r ∈ rs, pyContains props r = .ok true) : checkRequired props rs = .ok true := by
  induction rs with
  | nil => rfl
  | cons r rest ih =>
      have hr := h r (List.mem_cons_self r rest)
      simp only [checkRequired, hr]
      exact ih (fun x hx => h x (List.mem_cons_of_mem r hx))

lemma validateBody_create_schema (n d : String) (ps : List (String × ParameterConfig)) :
    validateBody (create_schema n d ps)
      = checkRequired (.obj (buildProperties ps)) (buildRequired ps) := rfl

/-- C1: for every name, description and ordered parameter map, the schema
document returned by `create_schema` satisfies `validate(...) == true`. -/
theorem create_schema_validates (n d : String) (ps : List (String × ParameterConfig)) :
    validate (create_schema n d ps) = true := by
  have hck : checkRequired (.obj (buildProperties ps)) (buildRequired ps) = .ok true := by
    apply checkRequired_ok
    intro r hr
    rcases mem_buildRequired ps r hr with ⟨s, c, hv, hmem⟩
    subst hv
    simp [pyContains, hasKey_buildProperties ps s c hmem]
  simp [validate, validateBody_create_schema, hck]

/-- C2: the `required` list of the schema document returned by
`create_schema` lists, in original map iteration (encounter) order, exactly
the parameter names whose config has `required == true` — the filter of the
parameter list in place, never a reordering. -/
theorem required_list_is_encounter_order (n d : String)
    (ps : List (String × ParameterConfig)) :
    create_schema n d ps
      = .obj [("type", .str "function"),
              ("function", .obj
                [("name", .str n),
                 ("description", .str d),
                 ("parameters", .obj
                   [("type", .str "object"),
                    ("properties", .obj (buildProperties ps)),
                    ("required", .arr (buildRequired ps))])])] ∧
    buildRequired ps
      = (ps.filter (fun p => p.2.required)).map (fun p => JsonValue.str p.1) :=
  ⟨rfl, buildRequired_eq ps⟩
lemma hasKey_append (a b : List (String × JsonValue)) (k : String) :
    hasKey (a ++ b) k = (hasKey a k || hasKey b k) := by
  induction a with
  | nil => simp [hasKey]
  | cons f rest ih => by_cases h : f.1 = k <;> simp [hasKey, h, ih]

lemma hasKey_optField (key : String) (v : JsonValue) (k : String) :
    hasKey (optField key v) k = (!v.isNull && (key == k)) := by
  by_cases h : v.isNull = true <;> by_cases h2 : key = k <;>
    simp_all [optField, hasKey]

/-- C6: `build_property` always emits `type` and `description`, emits each
optional field's key exactly when the field is non-absent, and emits `items`
(resp. nested `properties`) exactly when the config's type is `"array"`
(resp. `"object"`) and the field is non-absent. -/
theorem build_property_key_emission (c : ParameterConfig) :
    hasKey (build_property c) "type" = true ∧
    hasKey (build_property c) "description" = true ∧
    hasKey (build_property c) "enum" = !c.enum.isNull ∧
    hasKey (build_property c) "minimum" = !c.minimum.isNull ∧
    hasKey (build_property c) "maximum" = !c.maximum.isNull ∧
    hasKey (build_property c) "minLength" = !c.min_length.isNull ∧
    hasKey (build_property c) "maxLength" = !c.max_length.isNull ∧
    hasKey (build_property c) "pattern" = !c.pattern.isNull ∧
    hasKey (build_property c) "items" = (c.param_type == "array" && !c.items.isNull) ∧
    hasKey (build_property c) "properties" = (c.param_type == "object" && !c.properties.isNull) := by
  by_cases ha : c.param_type = "array" <;> by_cases ho : c.param_type = "object" <;>
    simp_all [build_property, hasKey_append, hasKey_optField, hasKey]

/-- C3 counterexample: a falsy-but-present default (`default=False`, as in
`CommonSchemas.get_weather`'s `include_forecast` parameter) is NOT treated as
absent: `_build_property` tests `config.default is not None`, so the emitted
property document carries `"default": False`. -/
theorem falsy_default_still_emitted :
    build_property { param_type := "boolean", description := "Incluir pronóstico extendido",
                     default := JsonValue.bool false }
      = [("type", JsonValue.str "boolean"),
         ("description", JsonValue.str "Incluir pronóstico extendido"),
         ("default", JsonValue.bool false)] := rfl

/-- C3 amended: `build_property` emits the `default` key exactly when the
config's `default` is not `None`; only a `None` default (indistinguishable
from an absent one in the dataclass) is omitted — falsy non-`None` defaults
such as `False`, `0` and `""` are emitted. -/
theorem default_key_emitted_iff_not_none (c : ParameterConfig) :
    hasKey (build_property c) "default" = !c.default.isNull := by
  by_cases ha : c.param_type = "array" <;> by_cases ho : c.param_type = "object" <;>
    simp_all [build_property, hasKey_append, hasKey_optField, hasKey]
/-- C5: `validate` returns `false`, rather than raising, on `None`, on a
non-mapping scalar, on the empty dict, on `{"type": "function"}` with no
`function` key, and on a schema whose `required` list names a parameter
absent from `properties`. -/
theorem validate_false_on_malformed :
    validate .null = false ∧
    validate (.num 5) = false ∧
    validate (.obj []) = false ∧
    validate (.obj [("type", JsonValue.str "function")]) = false ∧
    validate (.obj [("type", JsonValue.str "function"),
        ("function", .obj [("name", JsonValue.str "x"), ("description", JsonValue.str "d"),
           ("parameters", .obj [("type", JsonValue.str "object"), ("properties", .obj []),
              ("required", .arr [JsonValue.str "missing"])])])]) = false :=
  ⟨rfl, rfl, rfl, rfl, rfl⟩

/-- C4: on `{"type": "function", "function": 5}` the boolean validator
returns `false` (its `try/except` swallows the `TypeError` from
`"name" in 5`), but `get_validation_errors`, which has no `try`, propagates
the exception to its caller — the claim that validation never throws fails
for `get_validation_errors`. -/
theorem get_validation_errors_raises_validate_does_not :
    validate (.obj [("type", JsonValue.str "function"), ("function", JsonValue.num 5)]) = false ∧
    get_validation_errors (.obj [("type", JsonValue.str "function"), ("function", JsonValue.num 5)])
      = .error () :=
  ⟨rfl, rfl⟩

/-- C7 counterexample: on a schema violating only the fifth check (every
required name appears in `properties`) with two undeclared required names,
`get_validation_errors` returns two messages — more than one message for the
one violated check. -/
theorem gve_two_messages_one_violation :
    get_validation_errors (.obj [("type", JsonValue.str "function"),
        ("function", .obj [("name", JsonValue.str "x"), ("description", JsonValue.str "d"),
           ("parameters", .obj [("type", JsonValue.str "object"), ("properties", .obj []),
              ("required", .arr [JsonValue.str "a", JsonValue.str "b"])])])])
      = .ok ["Parámetro requerido 'a' no está en properties",
             "Parámetro requerido 'b' no está en properties"] := rfl
/-- C10: a present-but-falsy `function` value is treated like an absent one:
`get_validation_errors` returns early with the missing-`function` message
(after the type-check message, when that check also failed) and never reaches
the `name`/`description`/`parameters` checks. -/
theorem gve_early_return_on_falsy_function (fields : List (String × JsonValue))
    (v : JsonValue) (h1 : objLookup fields "function" = some v)
    (h2 : pyTruthy v = false) :
    get_validation_errors (.obj fields)
      = .ok ((if eqStr ((objLookup fields "type").getD .null) "function" then []
              else ["Tipo debe ser 'function'"]) ++ ["Falta definición de 'function'"]) := by
  simp [get_validation_errors, h1, h2]

/-- C10 witness: on `{"type": "function", "function": {}}` the empty dict is
falsy, so the only message is the missing-`function` one. -/
theorem gve_early_return_on_falsy_function_witness :
    get_validation_errors (.obj [("type", JsonValue.str "function"), ("function", .obj [])])
      = .ok ["Falta definición de 'function'"] :=
  gve_early_return_on_falsy_function _ (.obj []) rfl rfl
/-- C7 amended: `get_validation_errors` runs the same five checks as
`validate` and accumulates one message per violation (one per missing
`function` key and one per undeclared required name), with exactly two early
returns: a non-dict schema yields immediately exactly one message, and an
absent `function` member yields immediately the messages collected so far
plus the missing-`function` message; on every other path that returns
normally, the messages of all checks are concatenated in check order. -/
theorem gve_accumulation_structure :
    (∀ v : JsonValue, isDict v = false →
      get_validation_errors v = .ok ["Schema debe ser un diccionario"]) ∧
    (∀ fields : List (String × JsonValue), objLookup fields "function" = none →
      get_validation_errors (.obj fields)
        = .ok ((if eqStr ((objLookup fields "type").getD .null) "function" then []
                else ["Tipo debe ser 'function'"]) ++ ["Falta definición de 'function'"])) ∧
    (∀ (fields : List (String × JsonValue)) (fdef params ptype props req : JsonValue)
        (keyErrs : List String) (reqList : List JsonValue) (reqErrs : List String),
      objLookup fields "function" = some fdef → pyTruthy fdef = true →
      collectMissingKeys fdef ["name", "description", "parameters"] = .ok keyErrs →
      pyGet fdef "parameters" (.obj []) = .ok params →
      pyGet params "type" .null = .ok ptype →
      pyGet params "properties" (.obj []) = .ok props →
      pyGet params "required" (.arr []) = .ok req →
      pyIter req = .ok reqList →
      collectMissingRequired props reqList = .ok reqErrs →
      get_validation_errors (.obj fields)
        = .ok ((if eqStr ((objLookup fields "type").getD .null) "function" then []
                else ["Tipo debe ser 'function'"])
               ++ keyErrs
               ++ (if eqStr ptype "object" then [] else ["parameters.type debe ser 'object'"])
               ++ reqErrs)) := by
  refine ⟨?_, ?_, ?_⟩
  · intro v hv
    cases v <;> simp_all [isDict, get_validation_errors]
  · intro fields h
    simp [get_validation_errors, h, pyTruthy]
  · intro fields fdef params ptype props req keyErrs reqList reqErrs h1 h2 h3 h4 h5 h6 h7 h8 h9
    simp [get_validation_errors, h1, h2, h3, h4, h5, h6, h7, h8, h9]
/-- C8: for every parameter of the callable handed to `from_function`, the
inferred config is `required` exactly when the parameter declares no default
value, and a declared default value is attached to the config's `default`
field; `from_function` hands exactly these configs to `create_schema`. -/
theorem from_function_required_iff_no_default (fn d : String) (sig : List PyParam)
    (pds : List (String × String)) (p : PyParam) (hp : p ∈ sig) :
    ∃ c : ParameterConfig, (p.name, c) ∈ inferConfigs sig pds ∧
      c.required = p.default.isNone ∧
      (∀ v : JsonValue, p.default = some v → c.default = v) ∧
      from_function fn sig d pds = create_schema fn d (inferConfigs sig pds) := by
  refine ⟨inferConfig pds p, ?_, rfl, ?_, rfl⟩
  · exact List.mem_map.mpr ⟨p, hp, rfl⟩
  · intro v hv
    simp [inferConfig, hv]

/-- C8 witness: for `def f(a: int, b=3)`, the parameter `a` (no default) and
the parameter `b` (default `3`) get the stated configs. -/
theorem from_function_required_iff_no_default_witness :
    (PyParam.mk "b" none (some (JsonValue.num 3)))
        ∈ [PyParam.mk "a" (some .pyint) none, PyParam.mk "b" none (some (JsonValue.num 3))] ∧
    (∃ c : ParameterConfig,
      ((PyParam.mk "b" none (some (JsonValue.num 3))).name, c)
          ∈ inferConfigs [PyParam.mk "a" (some .pyint) none,
                          PyParam.mk "b" none (some (JsonValue.num 3))] [("a", "da")] ∧
      c.required = (PyParam.mk "b" none (some (JsonValue.num 3))).default.isNone ∧
      (∀ v : JsonValue, (PyParam.mk "b" none (some (JsonValue.num 3))).default = some v →
        c.default = v) ∧
      from_function "f" [PyParam.mk "a" (some .pyint) none,
                         PyParam.mk "b" none (some (JsonValue.num 3))] "d" [("a", "da")]
        = create_schema "f" "d"
            (inferConfigs [PyParam.mk "a" (some .pyint) none,
                           PyParam.mk "b" none (some (JsonValue.num 3))] [("a", "da")])) :=
  ⟨List.Mem.tail _ (List.Mem.head _),
   from_function_required_iff_no_default "f" "d" _ _ _ (List.Mem.tail _ (List.Mem.head _))⟩
lemma checkRequired_of_collect (props : JsonValue) (rs : List JsonValue)
    (msgs : List String) (h : collectMissingRequired props rs = .ok msgs) :
    checkRequired props rs = .ok msgs.isEmpty := by
  induction rs generalizing msgs with
  | nil =>
      simp [collectMissingRequired] at h
      simp [checkRequired, ← h]
  | cons r rest ih =>
      simp only [collectMissingRequired] at h
      cases hc : pyContains props r with
      | error e => simp [hc] at h
      | ok c =>
          simp only [hc] at h
          cases hr : collectMissingRequired props rest with
          | error e => simp [hr] at h
          | ok ms =>
              simp only [hr] at h
              cases c with
              | true =>
                  simp at h
                  simp only [checkRequired, hc]
                  rw [← h]
                  exact ih ms hr
              | false =>
                  simp at h
                  simp only [checkRequired, hc, ← h]
                  simp

lemma allKeysIn_of_collect (fdef : JsonValue) (ks : List String)
    (msgs : List String) (h : collectMissingKeys fdef ks = .ok msgs) :
    allKeysIn fdef ks = .ok msgs.isEmpty := by
  induction ks generalizing msgs with
  | nil =>
      simp [collectMissingKeys] at h
      simp [allKeysIn, ← h]
  | cons k rest ih =>
      simp only [collectMissingKeys] at h
      cases hc : pyContains fdef (.str k) with
      | error e => simp [hc] at h
      | ok c =>
          simp only [hc] at h
          cases hr : collectMissingKeys fdef rest with
          | error e => simp [hr] at h
          | ok ms =>
              simp only [hr] at h
              cases c with
              | true =>
                  simp at h
                  simp only [allKeysIn, hc]
                  rw [← h]
                  exact ih ms hr
              | false =>
                  simp at h
                  simp only [allKeysIn, hc, ← h]
                  simp
lemma validate_false_of_falsy (fields : List (String × JsonValue))
    (h : pyTruthy ((objLookup fields "function").getD .null) = false) :
    validate (.obj fields) = false := by
  by_cases ht : eqStr ((objLookup fields "type").getD .null) "function"
  · cases hfd : objLookup fields "function" with
    | none =>
        simp [validate, validateBody, ht, hfd, allKeysIn, pyContains, hasKey]
    | some v =>
        rw [hfd, Option.getD_some] at h
        cases v with
        | null => simp [validate, validateBody, ht, hfd, allKeysIn, pyContains]
        | bool b =>
            have hb : b = false := by simpa [pyTruthy] using h
            subst hb
            simp [validate, validateBody, ht, hfd, allKeysIn, pyContains]
        | num n => simp [validate, validateBody, ht, hfd, allKeysIn, pyContains]
        | str s =>
            have hs : s = "" := by simpa [pyTruthy] using h
            subst hs
            have hak : allKeysIn (JsonValue.str "") ["name", "description", "parameters"]
                = .ok false := rfl
            simp [validate, validateBody, ht, hfd, hak]
        | arr xs =>
            have hx : xs = [] := by simpa [pyTruthy, List.isEmpty_iff] using h
            subst hx
            simp [validate, validateBody, ht, hfd, allKeysIn, pyContains]
        | obj fs =>
            have hx : fs = [] := by simpa [pyTruthy, List.isEmpty_iff] using h
            subst hx
            simp [validate, validateBody, ht, hfd, allKeysIn, pyContains, hasKey]
  · simp [validate, validateBody, ht]
/-- C9: whenever `get_validation_errors` returns normally, `validate` accepts
the schema exactly when the returned error list is empty: the boolean
validator and the error-listing validator decide the same well-formed
schemas. -/
theorem validate_iff_errors_empty (s : JsonValue) (errs : List String)
    (h : get_validation_errors s = .ok errs) : validate s = true ↔ errs = [] := by
  cases s with
  | null => simp [get_validation_errors] at h; simp [validate, validateBody, ← h]
  | bool b => simp [get_validation_errors] at h; simp [validate, validateBody, ← h]
  | num n => simp [get_validation_errors] at h; simp [validate, validateBody, ← h]
  | str s => simp [get_validation_errors] at h; simp [validate, validateBody, ← h]
  | arr xs => simp [get_validation_errors] at h; simp [validate, validateBody, ← h]
  | obj fields =>
    simp only [get_validation_errors] at h
    by_cases htr : pyTruthy ((objLookup fields "function").getD .null) = true
    · cases hfd : objLookup fields "function" with
      | none => rw [hfd] at htr; simp [pyTruthy] at htr
      | some v =>
        rw [hfd, Option.getD_some] at htr
        rw [hfd] at h
        simp only [Option.getD_some, htr, if_true] at h
        cases hk : collectMissingKeys v ["name", "description", "parameters"] with
        | error e => rw [hk] at h; simp at h
        | ok keyErrs =>
        simp only [hk] at h
        cases hparams : pyGet v "parameters" (.obj []) with
        | error e => rw [hparams] at h; simp at h
        | ok params =>
        simp only [hparams] at h
        cases hpt : pyGet params "type" .null with
        | error e => rw [hpt] at h; simp at h
        | ok ptype =>
        simp only [hpt] at h
        cases hprops : pyGet params "properties" (.obj []) with
        | error e => rw [hprops] at h; simp at h
        | ok props =>
        simp only [hprops] at h
        cases hreq : pyGet params "required" (.arr []) with
        | error e => rw [hreq] at h; simp at h
        | ok req =>
        simp only [hreq] at h
        cases hiter : pyIter req with
        | error e => rw [hiter] at h; simp at h
        | ok reqList =>
        simp only [hiter] at h
        cases hcoll : collectMissingRequired props reqList with
        | error e => rw [hcoll] at h; simp at h
        | ok reqErrs =>
        simp only [hcoll] at h
        simp only [Except.ok.injEq] at h
        by_cases ht : eqStr ((objLookup fields "type").getD .null) "function"
        · simp only [ht, if_true, List.nil_append] at h
          have hak := allKeysIn_of_collect v _ keyErrs hk
          cases keyErrs with
          | cons e es =>
              have hvf : validate (.obj fields) = false := by
                simp [validate, validateBody, ht, hfd, hak]
              rw [hvf, ← h]
              simp
          | nil =>
              simp only [List.nil_append] at h
              by_cases hto : eqStr ptype "object"
              · simp only [hto, if_true, List.nil_append] at h
                have hcr := checkRequired_of_collect props reqList reqErrs hcoll
                have hv : validate (.obj fields) = reqErrs.isEmpty := by
                  simp [validate, validateBody, ht, hfd, hak, hparams, hpt, hto,
                        hprops, hreq, hiter, hcr]
                rw [hv, ← h]
                simp [List.isEmpty_iff]
              · have hvf : validate (.obj fields) = false := by
                  simp [validate, validateBody, ht, hfd, hak, hparams, hpt, hto]
                rw [hvf, ← h]
                simp [hto]
        · have hvf : validate (.obj fields) = false := by
            simp [validate, validateBody, ht]
          rw [hvf, ← h]
          simp [ht]
    · have hfls : pyTruthy ((objLookup fields "function").getD .null) = false := by
        simpa using htr
      simp only [hfls, Bool.false_eq_true, if_false] at h
      simp only [Except.ok.injEq] at h
      have hvf := validate_false_of_falsy fields hfls
      rw [hvf, ← h]
      simp

/-- C9 witness: on the empty dict, `get_validation_errors` returns two
messages and `validate` rejects. -/
theorem validate_iff_errors_empty_witness :
    get_validation_errors (.obj []) =
        .ok ["Tipo debe ser 'function'", "Falta definición de 'function'"] ∧
    (validate (.obj []) = true ↔
        (["Tipo debe ser 'function'", "Falta definición de 'function'"] : List String) = []) :=
  ⟨rfl, validate_iff_errors_empty (.obj []) _ rfl⟩
